import Mathlib

/-!
Verification of the conversation-state and entity-resolution core of the
mydealz bot, shallowly embedded from `src/models.py`, `src/chat/methods.py`
and `src/telegram/handlers.py`.  Strings are embedded as `List Char`,
machine integers as `Nat`/`Int`, Python floats as `ℚ` (exact on the plain
decimal numerals that reach the price pipeline), fallible code as `Except`.
-/

/-! ## Basic string helpers (models of Python primitives) -/

/-- Numeric value of a decimal digit character. -/
def digitVal (c : Char) : Nat := c.toNat - '0'.toNat

/-- Value of a list of decimal digit characters, most significant first. -/
def digitsVal (l : List Char) : Nat := l.foldl (fun a c => a * 10 + digitVal c) 0

/-- Modelled from the spec: Python `int()` restricted to the non-negative
decimal numerals that appear as notification ids in callback payloads;
any other input raises (here: `none`). -/
def parsePyNat (s : List Char) : Option Nat :=
  if s ≠ [] ∧ s.all Char.isDigit then some (digitsVal s) else none

/-- The comma-to-period normalization `price.replace(',', '.')` applied
character-wise (the price handlers in both integrations). -/
def commaToDot (c : Char) : Char := if c = ',' then '.' else c

/-- An exact decimal number `num / 10 ^ k`: the value of a decimal numeral
(price inputs are short enough that the binary float holding them carries
the exact half-integer the rounding of a claim-relevant input depends on). -/
structure DecNum where
  num : ℤ
  k : ℕ
  deriving DecidableEq, Repr

/-- The (positive) denominator `10 ^ k` of a `DecNum`. -/
def DecNum.den (d : DecNum) : ℤ := ((10 : ℕ) ^ d.k : ℕ)

/-- Modelled from the spec: Python `float()` restricted to plain decimal
numerals `[+-] digits [. digits]` — the only shapes the validated price
dialogue can feed it; the result is the exact decimal value. -/
def parsePyFloatCore (body : List Char) : Option DecNum :=
  let ip := body.takeWhile (fun c => c ≠ '.')
  match body.dropWhile (fun c => c ≠ '.') with
  | [] => if ip ≠ [] ∧ ip.all Char.isDigit then some ⟨digitsVal ip, 0⟩ else none
  | _ :: fp =>
    if (ip = [] → fp ≠ []) ∧ ip.all Char.isDigit ∧ fp.all Char.isDigit ∧
        fp.all (fun c => c ≠ '.') then
      some ⟨digitsVal ip * ((10 : ℕ) ^ fp.length : ℕ) + digitsVal fp, fp.length⟩
    else none

/-- Modelled from the spec: Python `float()` on an optionally signed plain
decimal numeral. -/
def parsePyFloat (s : List Char) : Option DecNum :=
  match s with
  | [] => none
  | c :: t =>
    if c = '-' then (parsePyFloatCore t).map (fun d => ⟨-d.num, d.k⟩)
    else if c = '+' then parsePyFloatCore t
    else parsePyFloatCore (c :: t)

/-- The test `n % 2 == 0` on integers, the evenness test used by banker's rounding. -/
def evenInt (n : ℤ) : Bool := n % 2 = 0

/-- Python `round()` on the exact value `num / 10 ^ k`: nearest integer,
ties to even (banker's rounding), computed with integer floor division
(`Int` `/` and `%` round toward negative infinity for this positive
divisor). -/
def pythonRound (d : DecNum) : ℤ :=
  let den := d.den
  let f := d.num / den
  let r2 := 2 * (d.num % den)
  if r2 < den then f
  else if den < r2 then f + 1
  else if evenInt f then f else f + 1

/-! ## Callback codec

`Methods.get_callback_variable` (src/chat/methods.py:324-341) decodes a
single variable out of the raw callback string using Python `str.find` and
slicing.  The delimiters are `!` (before each pair) and `=` (between name
and value). -/

/-- Boolean test that `pat` is an initial segment of `s` (the prefix test
underlying Python substring search). -/
def leadsWith : List Char → List Char → Bool
  | [], _ => true
  | _ :: _, [] => false
  | a :: as, b :: bs => a == b && leadsWith as bs

/-- Python `s.find(pat)`: index of the first occurrence of `pat` in `s`,
`none` for Python's `-1`. -/
def findSub (pat : List Char) : List Char → Option Nat
  | [] => if leadsWith pat [] then some 0 else none
  | c :: t => if leadsWith pat (c :: t) then some 0 else (findSub pat t).map (· + 1)

/-- Modelled from the spec: `chat/constants.VARIABLE_PATTERN`, the
`'!{variable}={value}'` template used both to build callback payloads and
(with an empty value) as the search pattern in `get_callback_variable`. -/
def VARIABLE_PATTERN (varName value : List Char) : List Char :=
  '!' :: varName ++ '=' :: value

/-- Modelled from the spec: the name of the notification-id callback
variable (`chat/constants.Vars.NOTIFICATION_ID`). -/
def NOTIFICATION_ID : List Char := "notification_id".toList

/-- Model of `Methods.get_callback_variable` (src/chat/methods.py:324-341): locate
`!variable=` in the callback data, then slice up to the next `!` or the end
of the string; absent data or variable yields the empty string. -/
def get_callback_variable (cb_data : Option (List Char)) (varName : List Char) :
    List Char :=
  let variable_pattern := VARIABLE_PATTERN varName []
  match cb_data with
  | none => []
  | some cb =>
    if cb = [] then [] else
    match findSub variable_pattern cb with
    | none => []
    | some start0 =>
      let start := start0 + variable_pattern.length
      let e := match (findSub ['!'] (cb.drop start)).map (· + start) with
               | some e => e
               | none => cb.length
      (cb.drop start).take (e - start)

/-- Modelled from the spec: the encoder side of the callback codec
(`chat/keyboards`, not in the excerpt): the action name followed by
`!name=value` pairs built with `VARIABLE_PATTERN`. -/
def flattenPairs : List (List Char × List Char) → List Char
  | [] => []
  | (k, v) :: rest => VARIABLE_PATTERN k v ++ flattenPairs rest

/-- Modelled from the spec: `encode(action, variables)` — the action name
followed by the delimited variable pairs. -/
def encodeCallback (action : List Char) (vars : List (List Char × List Char)) :
    List Char :=
  action ++ flattenPairs vars

/-- Modelled from the spec: decoding the action name back out of a token —
everything before the first pair delimiter. -/
def decodeAction (token : List Char) : List Char :=
  token.takeWhile (fun c => c ≠ '!')

/-- Token-safety (§4.1): the string contains neither of the two reserved
delimiter characters. -/
def tokenSafe (l : List Char) : Prop := '!' ∉ l ∧ '=' ∉ l

instance (l : List Char) : Decidable (tokenSafe l) := by
  unfold tokenSafe; infer_instance

/-! ## Data model (src/models.py) -/

/-- Model of `NotificationModel` (src/models.py:94-183): a saved keyword
subscription.  `id` 0 means unsaved; prices are machine integers. -/
structure NotificationModel where
  id : Nat := 0
  user_id : Int := 0
  query : List Char := []
  min_price : Int := 0
  max_price : Int := 0
  search_only_hot : Bool := false
  search_mydealz : Bool := true
  search_mindstar : Bool := true
  search_preisjaeger : Bool := true
  deriving DecidableEq, Repr

/-- Model of `UserModel` (src/models.py:18-91). -/
structure UserModel where
  id : Int := 0
  username : List Char := []
  first_name : List Char := []
  last_name : List Char := []
  search_mydealz : Bool := true
  search_mindstar : Bool := true
  search_preisjaeger : Bool := false
  deriving DecidableEq, Repr

/-- The chat profile fields read by `UserModel.parse_telegram_chat`
(src/models.py:61-67); `none` stands for a missing/falsy field. -/
structure Chat where
  id : Int
  title : Option (List Char) := none
  username : Option (List Char) := none
  first_name : Option (List Char) := none
  last_name : Option (List Char) := none

/-- Model of `UserModel.parse_telegram_chat` (src/models.py:61-67): Python
`chat.title or chat.username or ''` falsy-chaining. -/
def UserModel.parse_telegram_chat (chat : Chat) : UserModel :=
  { id := chat.id
    username := ((chat.title).orElse (fun _ => chat.username)).getD []
    first_name := chat.first_name.getD []
    last_name := chat.last_name.getD [] }

/-! ## Persistent store (external collaborator, spec §6) -/

/-- Modelled from the spec (§6): the persistent notification store —
keyed rows plus the next id the insert path would assign. -/
structure Store where
  data : Nat → Option NotificationModel
  nextId : Nat

/-- Modelled from the spec (§6): `get_notification(id)` /
`SQLiteNotifications.get_by_id`. -/
def Store.get_by_id (s : Store) (i : Nat) : Option NotificationModel := s.data i

/-- Modelled from the spec (§6): `upsert_notification` — insert-or-replace
keyed by id, id 0 assigns a new id; returns the row id. -/
def Store.upsert_model (s : Store) (n : NotificationModel) : Store × Nat :=
  if n.id = 0 then
    let n' := { n with id := s.nextId }
    (⟨fun i => if i = n'.id then some n' else s.data i, s.nextId + 1⟩, n'.id)
  else
    (⟨fun i => if i = n.id then some n else s.data i, s.nextId⟩, n.id)

/-- Modelled from the spec (§6): `update_field(id, MIN_PRICE, v)`. -/
def Store.updMinPrice (s : Store) (target : Nat) (v : Int) : Store :=
  ⟨fun i => if i = target then (s.data i).map (fun n => { n with min_price := v })
            else s.data i, s.nextId⟩

/-- Modelled from the spec (§6): `update_field(id, MAX_PRICE, v)`. -/
def Store.updMaxPrice (s : Store) (target : Nat) (v : Int) : Store :=
  ⟨fun i => if i = target then (s.data i).map (fun n => { n with max_price := v })
            else s.data i, s.nextId⟩

/-- Modelled from the spec (§6): `update_field(id, ONLY_HOT, v)`. -/
def Store.updOnlyHot (s : Store) (target : Nat) (v : Bool) : Store :=
  ⟨fun i => if i = target then (s.data i).map (fun n => { n with search_only_hot := v })
            else s.data i, s.nextId⟩

/-- Modelled from the spec (§6): the user store. -/
def UserStore := Int → Option UserModel

/-- Modelled from the spec (§6): `upsert_user`, keyed by chat id. -/
def upsertUser (s : UserStore) (u : UserModel) : UserStore :=
  fun i => if i = u.id then some u else s i

/-! ## Sessions and conversation state -/

/-- The chat-integration session (`context.user_data`): the only key the
excerpt writes is `Vars.NOTIFICATION`, the cached last-resolved record
(src/chat/methods.py:109,313). -/
structure ChatSession where
  notification : Option NotificationModel := none
  deriving DecidableEq, Repr

/-- The aiogram FSM states registered by the telegram integration
(`telegram/constants.States`). -/
inductive FSMState
  | ADD_NOTIFICATION | EDIT_QUERY | EDIT_MIN_PRICE | EDIT_MAX_PRICE
  deriving DecidableEq, Repr

/-- The telegram-integration conversation session (`FSMContext`): the
current state plus the one data key the excerpt uses,
`data['notification_id']` (src/telegram/handlers.py:258-268). -/
structure FSMContext where
  state : Option FSMState := none
  notification_id : Option Nat := none
  deriving DecidableEq, Repr

/-- Model of `Handlers.__finish_state` (src/telegram/handlers.py:293-296): finish —
clearing both state and data — only when a state is currently set. -/
def finishStateOpt (fsm : FSMContext) : FSMContext :=
  if fsm.state = none then fsm else {}

/-- The conversation-state value a chat-integration handler returns to the
`ConversationHandler` (a `Vars` state string or `END_CONVERSATION`). -/
inductive ConvResult
  | endConversation
  | state (s : FSMState)
  deriving DecidableEq, Repr

/-- The aiogram callback-data mapping: `callback_data.get('notification_id', 0)`
reads an optional entry (src/telegram/handlers.py:268). -/
structure CallbackData where
  notification_id : Option Nat := none
  deriving DecidableEq, Repr

/-- Errors of the chat integration's resolver and price parser:
`NotificationNotFoundError` and Python's `ValueError` from `int()`/`float()`. -/
inductive ChatErr
  | notFound
  | valueError
  deriving DecidableEq, Repr

/-- Observable side effects of a handler turn, for frame conditions:
store reads, store/user writes and outbound replies. -/
inductive Effect
  | readUser (id : Int)
  | wroteUser (id : Int)
  | readNotifs (userId : Int)
  | readNotif (id : Nat)
  | homeReply
  | replyOverview (id : Nat)
  | replyPriceInstructions
  | replyQueryInstructions
  | replyUpdated
  deriving DecidableEq, Repr

/-! ## Entity resolvers -/

namespace Methods

/-- Model of `Methods.get_notification` (src/chat/methods.py:305-322): extract the
notification-id callback variable; a non-empty value is parsed with `int()`
and looked up in the store; a found record is cached into the session and
returned; otherwise fall back to the session-cached record; with neither,
raise `NotificationNotFoundError`. -/
def get_notification (store : Store) (cb : Option (List Char))
    (session : ChatSession) : Except ChatErr (NotificationModel × ChatSession) :=
  let notification_id := get_callback_variable cb NOTIFICATION_ID
  let looked : Except ChatErr (Option NotificationModel) :=
    if notification_id ≠ [] then
      match parsePyNat notification_id with
      | some nid => .ok (store.get_by_id nid)
      | none => .error .valueError
    else .ok none
  match looked with
  | .error e => .error e
  | .ok (some n) => .ok (n, { session with notification := some n })
  | .ok none =>
    match session.notification with
    | some n => .ok (n, session)
    | none => .error .notFound

end Methods

/-- The two shapes `Handlers.__get_notification` accepts
(src/telegram/handlers.py:263-268): an aiogram callback-data mapping or the
FSM proxy. -/
inductive ResolverSource
  | callback (data : CallbackData)
  | fsm (state : FSMContext)

namespace Handlers

/-- Model of `Handlers.__get_notification` (src/telegram/handlers.py:262-274):
read `notification_id` (default 0) from the callback data or the FSM data,
look it up fresh in the store, raise `NotificationNotFoundError` when the
row is absent.  It receives no session to write. -/
def getNotification (store : Store) (source : ResolverSource) :
    Except ChatErr NotificationModel :=
  let notification_id :=
    match source with
    | .callback d => d.notification_id.getD 0
    | .fsm st => st.notification_id.getD 0
  match store.get_by_id notification_id with
  | some n => .ok n
  | none => .error .notFound

/-- Model of `Handlers.__store_notification_id` (src/telegram/handlers.py:257-260):
`data['notification_id'] = callback_data['notification_id']`; a missing key
in the callback mapping is a `KeyError`. -/
def storeNotificationId (fsm : FSMContext) (cd : CallbackData) :
    Except Unit FSMContext :=
  match cd.notification_id with
  | none => .error ()
  | some m => .ok { fsm with notification_id := some m }

/-- Model of `Handlers.edit_min_price` (src/telegram/handlers.py:96-102): pin the
callback's notification id into the session, set `EDIT_MIN_PRICE`, reply
with price instructions. -/
def edit_min_price (fsm : FSMContext) (cd : CallbackData) :
    Except Unit (FSMContext × List Effect) :=
  match storeNotificationId fsm cd with
  | .error e => .error e
  | .ok fsm1 =>
    .ok ({ fsm1 with state := some .EDIT_MIN_PRICE }, [.replyPriceInstructions])

/-- Model of `Handlers.edit_max_price` (src/telegram/handlers.py:123-129). -/
def edit_max_price (fsm : FSMContext) (cd : CallbackData) :
    Except Unit (FSMContext × List Effect) :=
  match storeNotificationId fsm cd with
  | .error e => .error e
  | .ok fsm1 =>
    .ok ({ fsm1 with state := some .EDIT_MAX_PRICE }, [.replyPriceInstructions])

/-- Model of `Handlers.edit_query` (src/telegram/handlers.py:78-82). -/
def edit_query (fsm : FSMContext) (cd : CallbackData) :
    Except Unit (FSMContext × List Effect) :=
  match storeNotificationId fsm cd with
  | .error e => .error e
  | .ok fsm1 =>
    .ok ({ fsm1 with state := some .EDIT_QUERY }, [.replyQueryInstructions])

/-- Model of `Handlers.show_notification` (src/telegram/handlers.py:70-76): resolve
from the callback data and reply with the overview.  The aiogram handler
receives no `FSMContext`, so the conversation session cannot change; it is
threaded through unchanged to make that frame condition visible. -/
def show_notification (store : Store) (fsm : FSMContext) (cd : CallbackData) :
    Except ChatErr (FSMContext × List Effect) :=
  match getNotification store (.callback cd) with
  | .error e => .error e
  | .ok n => .ok (fsm, [.readNotif (cd.notification_id.getD 0), .replyOverview n.id])

/-- Model of `Handlers.start` (src/telegram/handlers.py:20-32): load the user,
creating it from the chat profile when absent, then reply with the home
message and notification list. -/
def start (ustore : UserStore) (chat : Chat) : UserStore × List Effect :=
  match ustore chat.id with
  | some _ => (ustore, [.readUser chat.id, .readNotifs chat.id, .homeReply])
  | none =>
    let u := UserModel.parse_telegram_chat chat
    (upsertUser ustore u,
     [.readUser chat.id, .wroteUser u.id, .readNotifs chat.id, .homeReply])

/-- Model of `Handlers.start_over` (src/telegram/handlers.py:38-41): finish any
active state, then run `start`. -/
def start_over (ustore : UserStore) (chat : Chat) (fsm : FSMContext) :
    UserStore × FSMContext × List Effect :=
  let fsm1 := finishStateOpt fsm
  let (ustore1, eff) := start ustore chat
  (ustore1, fsm1, eff)

/-- Model of `Handlers.cancel` (src/telegram/handlers.py:198-214): a no-op when no
dialogue state is active; otherwise resolve the session's pinned
notification — replying with its overview, or, when
`NotificationNotFoundError` is raised, routing to `start_over` — and
always finish the state at the end.  The resolver error is caught, so the
function is total. -/
def cancel (ustore : UserStore) (store : Store) (chat : Chat) (fsm : FSMContext) :
    UserStore × FSMContext × List Effect :=
  match fsm.state with
  | none => (ustore, fsm, [])
  | some _ =>
    match getNotification store (.fsm fsm) with
    | .error _ =>
      let (ustore1, fsm1, eff) := start_over ustore chat fsm
      (ustore1, finishStateOpt fsm1, .readNotif (fsm.notification_id.getD 0) :: eff)
    | .ok n =>
      (ustore, finishStateOpt fsm,
       [.readNotif (fsm.notification_id.getD 0), .replyOverview n.id])

end Handlers

/-! ## Price dialogue -/

/-- The shared price computation of the four price handlers: substitute
`/remove` by `"0"`, normalize the comma separator, `float()` then
`round()`; `none` is Python's `ValueError`.  Both integrations run this
text-only computation after resolving the notification. -/
def pricePipeline (text : List Char) : Option Int :=
  let price := if text = "/remove".toList then "0".toList else text
  (parsePyFloat (price.map commaToDot)).map pythonRound

namespace Handlers

/-- Model of `Handlers.process_edit_min_price` (src/telegram/handlers.py:104-121):
substitute `/remove`, resolve the pinned notification from the FSM, parse
and round the price, upsert the mutated record, reply, then
`state.finish()`. -/
def process_edit_min_price (store : Store) (fsm : FSMContext) (text : List Char) :
    Except ChatErr (Store × FSMContext × List Effect) :=
  match getNotification store (.fsm fsm) with
  | .error e => .error e
  | .ok n =>
    match pricePipeline text with
    | none => .error .valueError
    | some v =>
      let n1 := { n with min_price := v }
      let (store1, _) := store.upsert_model n1
      .ok (store1, finishStateOpt fsm,
           [.readNotif (fsm.notification_id.getD 0), .replyUpdated])

/-- Model of `Handlers.process_edit_max_price` (src/telegram/handlers.py:131-147). -/
def process_edit_max_price (store : Store) (fsm : FSMContext) (text : List Char) :
    Except ChatErr (Store × FSMContext × List Effect) :=
  match getNotification store (.fsm fsm) with
  | .error e => .error e
  | .ok n =>
    match pricePipeline text with
    | none => .error .valueError
    | some v =>
      let n1 := { n with max_price := v }
      let (store1, _) := store.upsert_model n1
      .ok (store1, finishStateOpt fsm,
           [.readNotif (fsm.notification_id.getD 0), .replyUpdated])

/-- Model of `Handlers.toggle_only_hot` (src/telegram/handlers.py:149-155): resolve
from the callback, negate the flag, upsert (the single store write, counted
in the `Nat` component), then `show_notification` resolves again and
replies. -/
def toggle_only_hot (store : Store) (cd : CallbackData) :
    Except ChatErr (Store × Nat × List Effect) :=
  match getNotification store (.callback cd) with
  | .error e => .error e
  | .ok n =>
    let n1 := { n with search_only_hot := !n.search_only_hot }
    let (store1, _) := store.upsert_model n1
    match getNotification store1 (.callback cd) with
    | .error e => .error e
    | .ok n2 => .ok (store1, 1, [.replyOverview n2.id])

end Handlers

/-- Two consecutive invocations of the telegram toggle, returning the final
store and the total number of store writes. -/
def toggleTwiceH (store : Store) (cd : CallbackData) : Except ChatErr (Store × Nat) :=
  match Handlers.toggle_only_hot store cd with
  | .error e => .error e
  | .ok (s1, w1, _) =>
    match Handlers.toggle_only_hot s1 cd with
    | .error e => .error e
    | .ok (s2, w2, _) => .ok (s2, w1 + w2)

namespace Methods

/-- Model of `Methods.update_min_price_trigger` (src/chat/methods.py:164-169): reply
with the price instructions and enter `EDIT_MIN_PRICE`.  The callback data
is not consulted and the session is not written. -/
def update_min_price_trigger (_cb : Option (List Char)) (session : ChatSession) :
    ChatSession × ConvResult × List Effect :=
  (session, .state .EDIT_MIN_PRICE, [.replyPriceInstructions])

/-- Model of `Methods.update_min_price` (src/chat/methods.py:171-185): substitute
`/remove`, resolve (callback id with session fallback), parse and round,
write the `MIN_PRICE` column, reply, end the conversation. -/
def update_min_price (store : Store) (cb : Option (List Char))
    (session : ChatSession) (text : List Char) :
    Except ChatErr (Store × ChatSession × ConvResult × List Effect) :=
  match get_notification store cb session with
  | .error e => .error e
  | .ok (n, session1) =>
    match pricePipeline text with
    | none => .error .valueError
    | some v =>
      let store1 := store.updMinPrice n.id v
      .ok (store1, session1, .endConversation, [.replyUpdated])

/-- Model of `Methods.update_max_price` (src/chat/methods.py:201-215). -/
def update_max_price (store : Store) (cb : Option (List Char))
    (session : ChatSession) (text : List Char) :
    Except ChatErr (Store × ChatSession × ConvResult × List Effect) :=
  match get_notification store cb session with
  | .error e => .error e
  | .ok (n, session1) =>
    match pricePipeline text with
    | none => .error .valueError
    | some v =>
      let store1 := store.updMaxPrice n.id v
      .ok (store1, session1, .endConversation, [.replyUpdated])

/-- Model of `Methods.toggle_only_hot` (src/chat/methods.py:224-231): resolve,
negate, write the `ONLY_HOT` column (the single store write, counted), then
`show_notification` re-resolves with the same update and session and
replies with the overview. -/
def toggle_only_hot (store : Store) (cb : Option (List Char))
    (session : ChatSession) :
    Except ChatErr (Store × ChatSession × Nat × List Effect) :=
  match get_notification store cb session with
  | .error e => .error e
  | .ok (n, session1) =>
    let flag := !n.search_only_hot
    let store1 := store.updOnlyHot n.id flag
    match get_notification store1 cb session1 with
    | .error e => .error e
    | .ok (n2, session2) => .ok (store1, session2, 1, [.replyOverview n2.id])

end Methods

/-- Two consecutive invocations of the chat toggle, threading the session
and returning the final store and the total number of store writes. -/
def toggleTwiceM (store : Store) (cb : Option (List Char)) (session : ChatSession) :
    Except ChatErr (Store × Nat) :=
  match Methods.toggle_only_hot store cb session with
  | .error e => .error e
  | .ok (s1, sess1, w1, _) =>
    match Methods.toggle_only_hot s1 cb sess1 with
    | .error e => .error e
    | .ok (s2, _, w2, _) => .ok (s2, w1 + w2)

/-! ## Spec-modelled input validation (§4.3)

The routing that decides whether a text message reaches the price handler
or the `invalid_price` re-prompt lives in the bot wiring, outside the
excerpt. -/

/-- Modelled from the spec: a price numeral — digits, optionally followed
by a comma or period decimal separator and more digits. -/
def matchesPriceNumeral (s : List Char) : Bool :=
  let ip := s.takeWhile Char.isDigit
  let rest := s.dropWhile Char.isDigit
  !ip.isEmpty &&
    (match rest with
     | [] => true
     | c :: fp => (c = ',' || c = '.') && !fp.isEmpty && fp.all Char.isDigit)

/-- Modelled from the spec (§4.3): the accepted price inputs — the literal
`/remove` shorthand or a decimal numeral. -/
def isValidPriceInput (s : List Char) : Bool :=
  s = "/remove".toList || matchesPriceNumeral s

/-- Decidable equality of handler results, for concrete evaluation. -/
instance {ε α : Type} [DecidableEq ε] [DecidableEq α] : DecidableEq (Except ε α) :=
  fun a b =>
    match a, b with
    | .error x, .error y => decidable_of_iff (x = y) (by simp)
    | .error _, .ok _ => isFalse (by simp)
    | .ok _, .error _ => isFalse (by simp)
    | .ok x, .ok y => decidable_of_iff (x = y) (by simp)

/-! ## Concrete fixtures for witnesses and counterexamples -/

/-- A saved notification with id 7. -/
def exN7 : NotificationModel :=
  { id := 7, user_id := 42, query := "usb stick".toList, min_price := 5 }

/-- A saved notification with id 3. -/
def exN3 : NotificationModel :=
  { id := 3, user_id := 42, query := "ssd".toList }

/-- A store holding exactly the notification with id 7. -/
def exStore7 : Store := ⟨fun i => if i = 7 then some exN7 else none, 8⟩

/-- A store holding exactly the notification with id 3. -/
def exStore3 : Store := ⟨fun i => if i = 3 then some exN3 else none, 4⟩

/-- A store holding no notification at all. -/
def emptyStore : Store := ⟨fun _ => none, 1⟩

/-- A session in the min-price dialogue pinned to notification 3. -/
def exFsmMin : FSMContext := ⟨some .EDIT_MIN_PRICE, some 3⟩

/-- A session in the max-price dialogue pinned to notification 3. -/
def exFsmMax : FSMContext := ⟨some .EDIT_MAX_PRICE, some 3⟩

/-- A user store holding no user. -/
def emptyUserStore : UserStore := fun _ => none

/-- A chat profile. -/
def exChat : Chat := { id := 42, first_name := some ("Ada".toList) }

/-! ## Claim theorems -/

/-- C10: Cancel in Idle is a silent no-op: with no active dialogue state the
cancel handler returns immediately — no reply and no store read (empty
effect list), user store, session and conversation state unchanged. -/
theorem c10_cancel_idle_noop (ustore : UserStore) (store : Store) (chat : Chat)
    (fsm : FSMContext) (h : fsm.state = none) :
    Handlers.cancel ustore store chat fsm = (ustore, fsm, []) := by
  unfold Handlers.cancel
  rw [h]

/-- Witness for C10 at a concrete idle session. -/
theorem c10_witness :
    Handlers.cancel emptyUserStore exStore7 exChat ⟨none, some 3⟩ =
      (emptyUserStore, ⟨none, some 3⟩, []) :=
  c10_cancel_idle_noop emptyUserStore exStore7 exChat ⟨none, some 3⟩ rfl

/-- C6: Cancel with missing target: with an active dialogue state whose
pinned notification id no longer resolves in the store, cancel routes to
the home behavior (the home reply is among the effects) and clears the
session; the resolver's `NotificationNotFoundError` is caught, so the
(total) handler returns normally. -/
theorem c6_cancel_missing_target (ustore : UserStore) (store : Store)
    (chat : Chat) (fsm : FSMContext) (st : FSMState)
    (hst : fsm.state = some st)
    (hmiss : store.data (fsm.notification_id.getD 0) = none) :
    (Handlers.cancel ustore store chat fsm).2.1 = ⟨none, none⟩ ∧
    Effect.homeReply ∈ (Handlers.cancel ustore store chat fsm).2.2 := by
  unfold Handlers.cancel Handlers.getNotification Handlers.start_over
    Handlers.start Store.get_by_id finishStateOpt
  rw [hst]
  simp only [hmiss]
  cases hu : ustore chat.id <;> simp [hu]

/-- Witness for C6: dialogue pinned to the deleted id 9. -/
theorem c6_witness :
    (Handlers.cancel emptyUserStore exStore7 exChat
        ⟨some .EDIT_MIN_PRICE, some 9⟩).2.1 = ⟨none, none⟩ ∧
    Effect.homeReply ∈
      (Handlers.cancel emptyUserStore exStore7 exChat
        ⟨some .EDIT_MIN_PRICE, some 9⟩).2.2 :=
  c6_cancel_missing_target emptyUserStore exStore7 exChat
    ⟨some .EDIT_MIN_PRICE, some 9⟩ .EDIT_MIN_PRICE rfl (by decide)

/-- C5 counterexample: in the chat integration the "edit min price" trigger
(`Methods.update_min_price_trigger`) does not store the callback's
notification id in the session: with an empty session and a callback naming
the existing notification 7, the session after the trigger is still empty
and the subsequent free-text turn (no callback) raises
`NotificationNotFoundError` instead of resolving 7. -/
theorem c5_counterexample :
    exStore7.get_by_id 7 = some exN7 ∧
    (Methods.update_min_price_trigger
        (some ("edit_min_price!notification_id=7".toList)) ⟨none⟩) =
      (⟨none⟩, .state .EDIT_MIN_PRICE, [.replyPriceInstructions]) ∧
    Methods.get_notification exStore7 none ⟨none⟩ = .error .notFound := by
  refine ⟨rfl, rfl, rfl⟩

/-- C5 (amended): in the telegram integration every edit trigger invoked
with a callback naming notification `M` stores `M` in the session before
transitioning to the corresponding awaiting state, so the subsequent
free-text turn (which carries no id) resolves `M`; the chat integration's
trigger performs no such session write (see the counterexample) and relies
on the record cached by the preceding explicit-id resolution. -/
theorem c5_edit_trigger_pins_target (fsm : FSMContext) (cd : CallbackData)
    (store : Store) (M : Nat) (n : NotificationModel)
    (hcd : cd.notification_id = some M) (hs : store.data M = some n) :
    Handlers.edit_min_price fsm cd =
      .ok (⟨some .EDIT_MIN_PRICE, some M⟩, [.replyPriceInstructions]) ∧
    Handlers.edit_max_price fsm cd =
      .ok (⟨some .EDIT_MAX_PRICE, some M⟩, [.replyPriceInstructions]) ∧
    Handlers.edit_query fsm cd =
      .ok (⟨some .EDIT_QUERY, some M⟩, [.replyQueryInstructions]) ∧
    Handlers.getNotification store (.fsm ⟨some .EDIT_MIN_PRICE, some M⟩) =
      .ok n := by
  unfold Handlers.edit_min_price Handlers.edit_max_price Handlers.edit_query
    Handlers.storeNotificationId Handlers.getNotification Store.get_by_id
  rw [hcd]
  simp [hs]

/-- Witness for C5 (amended) at notification 7. -/
theorem c5_witness :
    Handlers.edit_min_price ⟨none, none⟩ ⟨some 7⟩ =
      .ok (⟨some .EDIT_MIN_PRICE, some 7⟩, [.replyPriceInstructions]) ∧
    Handlers.edit_max_price ⟨none, none⟩ ⟨some 7⟩ =
      .ok (⟨some .EDIT_MAX_PRICE, some 7⟩, [.replyPriceInstructions]) ∧
    Handlers.edit_query ⟨none, none⟩ ⟨some 7⟩ =
      .ok (⟨some .EDIT_QUERY, some 7⟩, [.replyQueryInstructions]) ∧
    Handlers.getNotification exStore7 (.fsm ⟨some .EDIT_MIN_PRICE, some 7⟩) =
      .ok exN7 :=
  c5_edit_trigger_pins_target ⟨none, none⟩ ⟨some 7⟩ exStore7 7 exN7 rfl (by decide)

/-- The computation `pricePipeline` performs on the text `"12,50"`:
`round(float('12.50'))` is `12` under Python's banker's rounding. -/
theorem pricePipeline_1250 : pricePipeline ("12,50".toList) = some 12 := by decide

/-- C3 counterexample: in state `EDIT_MIN_PRICE` with the session pinned to
the existing notification 3, sending `"12,50"` makes the store receive
`min_price = 12`, not `13`: Python's `round` rounds the tie `12.5` to the
even neighbour 12. -/
theorem c3_counterexample :
    (Handlers.process_edit_min_price exStore3 exFsmMin ("12,50".toList)).map
        (fun r => (r.1.data 3, r.2.1)) =
      .ok (some { exN3 with min_price := 12 }, ⟨none, none⟩) ∧
    (Handlers.process_edit_min_price exStore3 exFsmMin ("12,50".toList)).map
        (fun r => r.1.data 3) ≠
      .ok (some { exN3 with min_price := 13 }) := by
  refine ⟨by decide, by decide⟩

/-- C3 (amended): in state `EDIT_MIN_PRICE` with the session pinned to an
existing notification `M`, sending `"12,50"` transitions to idle
(`state.finish()` clears the FSM) and the store receives `min_price = 12`
for `M` — the comma is normalized to a period and Python's `round` takes
the tie `12.5` to the even integer 12. -/
theorem c3_min_price_comma_input (store : Store) (fsm : FSMContext)
    (M : Nat) (n : NotificationModel)
    (hstate : fsm.state = some .EDIT_MIN_PRICE)
    (hpin : fsm.notification_id = some M)
    (hs : store.data M = some n) (hid : n.id = M) (hM : M ≠ 0) :
    (Handlers.process_edit_min_price store fsm ("12,50".toList)).map
        (fun r => (r.1.data M, r.2.1)) =
      .ok (some { n with min_price := 12 }, ⟨none, none⟩) := by
  have hres : Handlers.getNotification store (.fsm fsm) = .ok n := by
    simp [Handlers.getNotification, Store.get_by_id, hpin, hs]
  unfold Handlers.process_edit_min_price
  rw [hres, pricePipeline_1250]
  simp [Store.upsert_model, finishStateOpt, hid, hM, hstate, Except.map]

/-- Witness for C3 (amended) at notification 3. -/
theorem c3_witness :
    (Handlers.process_edit_min_price exStore3 exFsmMin ("12,50".toList)).map
        (fun r => (r.1.data 3, r.2.1)) =
      .ok (some { exN3 with min_price := 12 }, ⟨none, none⟩) :=
  c3_min_price_comma_input exStore3 exFsmMin 3 exN3 rfl rfl (by decide) rfl
    (by decide)

/-- The notification id a resolver source carries (default 0). -/
def sourceNid : ResolverSource → Nat
  | .callback d => d.notification_id.getD 0
  | .fsm st => st.notification_id.getD 0

/-- C4 counterexample: the chat resolver does not re-validate its session
fallback: with an empty store and a session caching the record of the
(deleted) notification 3, `Methods.get_notification` returns the stale
cached record instead of signalling `NotFound`. -/
theorem c4_counterexample :
    emptyStore.data exN3.id = none ∧
    Methods.get_notification emptyStore none ⟨some exN3⟩ =
      .ok (exN3, ⟨some exN3⟩) := by
  refine ⟨rfl, rfl⟩

/-- C4 (amended): the telegram resolver re-validates the session reference:
with no explicit id, a pinned id that no longer resolves in the store leads
to `NotFound`, and any record it returns is the store's row for the carried
id at call time.  The chat resolver instead returns the session-cached
record without consulting the store (see the counterexample). -/
theorem c4_session_fallback_revalidation :
    (∀ (store : Store) (fsm : FSMContext),
       store.data (fsm.notification_id.getD 0) = none →
       Handlers.getNotification store (.fsm fsm) = .error .notFound) ∧
    (∀ (store : Store) (src : ResolverSource) (n : NotificationModel),
       Handlers.getNotification store src = .ok n →
       store.data (sourceNid src) = some n) ∧
    (∀ (store : Store) (cb : Option (List Char)) (session : ChatSession)
       (n : NotificationModel),
       get_callback_variable cb NOTIFICATION_ID = [] →
       session.notification = some n →
       Methods.get_notification store cb session = .ok (n, session)) := by
  refine ⟨?_, ?_, ?_⟩
  · intro store fsm hmiss
    simp [Handlers.getNotification, Store.get_by_id, hmiss]
  · intro store src n h
    unfold Handlers.getNotification Store.get_by_id at h
    unfold sourceNid
    cases src with
    | callback d =>
      simp only at h
      cases hd : store.data (d.notification_id.getD 0) with
      | none => rw [hd] at h; cases h
      | some m => rw [hd] at h; cases h; rfl
    | fsm st =>
      simp only at h
      cases hd : store.data (st.notification_id.getD 0) with
      | none => rw [hd] at h; cases h
      | some m => rw [hd] at h; cases h; rfl
  · intro store cb session n hno hcache
    unfold Methods.get_notification
    rw [hno]
    simp [hcache]

/-- Witness for C4 (amended): pinned id 9 was deleted; explicit resolution
of id 7 returns the store's row. -/
theorem c4_witness :
    Handlers.getNotification exStore7 (.fsm ⟨some .EDIT_MIN_PRICE, some 9⟩) =
      .error .notFound ∧
    exStore7.data (sourceNid (.callback ⟨some 7⟩)) = some exN7 ∧
    Methods.get_notification emptyStore none ⟨some exN7⟩ =
      .ok (exN7, ⟨some exN7⟩) :=
  ⟨c4_session_fallback_revalidation.1 exStore7 ⟨some .EDIT_MIN_PRICE, some 9⟩
     (by decide),
   c4_session_fallback_revalidation.2.1 exStore7 (.callback ⟨some 7⟩) exN7
     (by decide),
   c4_session_fallback_revalidation.2.2 emptyStore none ⟨some exN7⟩ exN7 rfl rfl⟩

/-- C8 counterexample: in the telegram integration an explicit-id
resolution caches nothing: `show_notification` resolves notification 7
from the callback but the FSM session is unchanged (still empty), so the
subsequent turn carrying no id signals `NotFound` instead of resolving 7. -/
theorem c8_counterexample :
    Handlers.show_notification exStore7 ⟨none, none⟩ ⟨some 7⟩ =
      .ok (⟨none, none⟩, [.readNotif 7, .replyOverview 7]) ∧
    Handlers.getNotification exStore7 (.fsm ⟨none, none⟩) = .error .notFound := by
  refine ⟨rfl, rfl⟩

/-- C8 (amended): the chat resolver caches: an explicit-id resolution that
finds the record stores it into the session before returning, and a
subsequent turn with no callback data resolves the same notification from
that cache alone; the telegram resolver receives no session to write — its
handlers (e.g. `show_notification`) leave the FSM context unchanged (see
the counterexample). -/
theorem c8_resolver_caches (store : Store) (cb : Option (List Char))
    (session : ChatSession) (N : Nat) (n : NotificationModel)
    (hne : get_callback_variable cb NOTIFICATION_ID ≠ [])
    (hparse : parsePyNat (get_callback_variable cb NOTIFICATION_ID) = some N)
    (hs : store.data N = some n) :
    Methods.get_notification store cb session = .ok (n, ⟨some n⟩) ∧
    Methods.get_notification emptyStore none ⟨some n⟩ = .ok (n, ⟨some n⟩) ∧
    (∀ (fsm : FSMContext) (cd : CallbackData) (r : FSMContext × List Effect),
       Handlers.show_notification store fsm cd = .ok r → r.1 = fsm) := by
  refine ⟨?_, rfl, ?_⟩
  · simp [Methods.get_notification, hne, hparse, Store.get_by_id, hs]
  · intro fsm cd r h
    unfold Handlers.show_notification at h
    cases hg : Handlers.getNotification store (.callback cd) with
    | error e => rw [hg] at h; cases h
    | ok m => rw [hg] at h; cases h; rfl

/-- Witness for C8 (amended) at notification 7. -/
theorem c8_witness :
    Methods.get_notification exStore7
        (some ("show!notification_id=7".toList)) ⟨none⟩ = .ok (exN7, ⟨some exN7⟩) ∧
    Methods.get_notification emptyStore none ⟨some exN7⟩ =
      .ok (exN7, ⟨some exN7⟩) ∧
    Handlers.show_notification exStore7 ⟨some .EDIT_QUERY, some 9⟩ ⟨some 7⟩ =
      .ok (⟨some .EDIT_QUERY, some 9⟩, [.readNotif 7, .replyOverview 7]) := by
  have h := c8_resolver_caches exStore7 (some ("show!notification_id=7".toList))
    ⟨none⟩ 7 exN7 (by decide) (by decide) (by decide)
  exact ⟨h.1, h.2.1, by rfl⟩

/-- C1: Resolver precedence, for both integrations.  (1)/(2): a callback
carrying an explicit non-empty id of an existing notification resolves to
that notification regardless of session contents.  (3)/(4): with no
explicit id, a session pinned to an existing notification `M` resolves the
notification for `M`.  (5)/(6): with neither source, the resolver signals
`NotFound`. -/
theorem c1_resolver_precedence :
    (∀ (store : Store) (cb : Option (List Char)) (session : ChatSession)
       (N : Nat) (n : NotificationModel),
       get_callback_variable cb NOTIFICATION_ID ≠ [] →
       parsePyNat (get_callback_variable cb NOTIFICATION_ID) = some N →
       store.data N = some n →
       Methods.get_notification store cb session = .ok (n, ⟨some n⟩)) ∧
    (∀ (store : Store) (cd : CallbackData) (N : Nat) (n : NotificationModel),
       cd.notification_id = some N → store.data N = some n →
       Handlers.getNotification store (.callback cd) = .ok n) ∧
    (∀ (store : Store) (cb : Option (List Char)) (session : ChatSession)
       (M : Nat) (n : NotificationModel),
       get_callback_variable cb NOTIFICATION_ID = [] →
       session.notification = some n → n.id = M → store.data M = some n →
       Methods.get_notification store cb session = .ok (n, session)) ∧
    (∀ (store : Store) (fsm : FSMContext) (M : Nat) (n : NotificationModel),
       fsm.notification_id = some M → store.data M = some n →
       Handlers.getNotification store (.fsm fsm) = .ok n) ∧
    (∀ (store : Store) (cb : Option (List Char)) (session : ChatSession),
       get_callback_variable cb NOTIFICATION_ID = [] →
       session.notification = none →
       Methods.get_notification store cb session = .error .notFound) ∧
    (∀ (store : Store) (fsm : FSMContext),
       store.data (fsm.notification_id.getD 0) = none →
       Handlers.getNotification store (.fsm fsm) = .error .notFound) := by
  refine ⟨?_, ?_, ?_, ?_, ?_, ?_⟩
  · intro store cb session N n hne hparse hs
    simp [Methods.get_notification, hne, hparse, Store.get_by_id, hs]
  · intro store cd N n hcd hs
    simp [Handlers.getNotification, Store.get_by_id, hcd, hs]
  · intro store cb session M n hno hcache hid hs
    simp [Methods.get_notification, hno, hcache]
  · intro store fsm M n hpin hs
    simp [Handlers.getNotification, Store.get_by_id, hpin, hs]
  · intro store cb session hno hcache
    simp [Methods.get_notification, hno, hcache]
  · intro store fsm hmiss
    simp [Handlers.getNotification, Store.get_by_id, hmiss]

/-- Witness for C1 at concrete stores, callbacks and sessions. -/
theorem c1_witness :
    Methods.get_notification exStore7 (some ("show!notification_id=7".toList))
        ⟨some exN3⟩ = .ok (exN7, ⟨some exN7⟩) ∧
    Handlers.getNotification exStore7 (.callback ⟨some 7⟩) = .ok exN7 ∧
    Methods.get_notification exStore7 none ⟨some exN7⟩ = .ok (exN7, ⟨some exN7⟩) ∧
    Handlers.getNotification exStore7 (.fsm ⟨some .EDIT_MIN_PRICE, some 7⟩) =
      .ok exN7 ∧
    Methods.get_notification exStore7 none ⟨none⟩ = .error .notFound ∧
    Handlers.getNotification exStore7 (.fsm ⟨some .EDIT_MIN_PRICE, some 9⟩) =
      .error .notFound :=
  ⟨c1_resolver_precedence.1 exStore7 (some ("show!notification_id=7".toList))
     ⟨some exN3⟩ 7 exN7 (by decide) (by decide) (by decide),
   c1_resolver_precedence.2.1 exStore7 ⟨some 7⟩ 7 exN7 rfl (by decide),
   c1_resolver_precedence.2.2.1 exStore7 none ⟨some exN7⟩ 7 exN7 rfl rfl rfl
     (by decide),
   c1_resolver_precedence.2.2.2.1 exStore7 ⟨some .EDIT_MIN_PRICE, some 7⟩ 7 exN7
     rfl (by decide),
   c1_resolver_precedence.2.2.2.2.1 exStore7 none ⟨none⟩ rfl rfl,
   c1_resolver_precedence.2.2.2.2.2 exStore7 ⟨some .EDIT_MIN_PRICE, some 9⟩
     (by decide)⟩

/-- Overwriting one row of a store (the shape both write paths produce). -/
def Store.setRow (s : Store) (N : Nat) (m : NotificationModel) : Store :=
  ⟨fun i => if i = N then some m else s.data i, s.nextId⟩

/-- Reading back the overwritten row. -/
theorem setRow_get_same (s : Store) (N : Nat) (m : NotificationModel) :
    (s.setRow N m).data N = some m := by
  simp [Store.setRow]

/-- An upsert of a record with a non-zero id replaces exactly that row. -/
theorem upsert_nonzero (s : Store) (m : NotificationModel) (hm : m.id ≠ 0) :
    s.upsert_model m = (s.setRow m.id m, m.id) := by
  unfold Store.upsert_model Store.setRow
  rw [if_neg hm]

/-- A column update of an existing row is a row overwrite. -/
theorem updOnlyHot_eq_setRow (s : Store) (N : Nat) (n : NotificationModel)
    (v : Bool) (hs : s.data N = some n) :
    s.updOnlyHot N v = s.setRow N { n with search_only_hot := v } := by
  unfold Store.updOnlyHot Store.setRow
  congr 1
  funext i
  by_cases h : i = N
  · subst h
    rw [hs]
    simp
  · simp [h]

/-- Overwriting a row twice, the second time with the value it originally
held, restores the store. -/
theorem setRow_restore (s : Store) (N : Nat) (m n : NotificationModel)
    (hs : s.data N = some n) : (s.setRow N m).setRow N n = s := by
  cases s with
  | mk d nx =>
    unfold Store.setRow
    simp only
    congr 1
    funext i
    by_cases h : i = N
    · subst h
      simpa using hs.symm
    · simp [h]

/-- Toggling `search_only_hot` twice yields the original record. -/
theorem toggle_toggle_id (n : NotificationModel) :
    { n with search_only_hot := !!n.search_only_hot } = n := by
  cases n
  simp

/-- One invocation of the telegram toggle on an existing row: the row is
overwritten with the flag negated, and exactly one store write happens. -/
theorem toggleH_step (store : Store) (cd : CallbackData) (N : Nat)
    (n : NotificationModel) (hs : store.data N = some n) (hid : n.id = N)
    (hN : N ≠ 0) (hcd : cd.notification_id = some N) :
    Handlers.toggle_only_hot store cd =
      .ok (store.setRow N { n with search_only_hot := !n.search_only_hot }, 1,
           [.replyOverview n.id]) := by
  have hresH : Handlers.getNotification store (.callback cd) = .ok n := by
    simp [Handlers.getNotification, Store.get_by_id, hcd, hs]
  have hup : store.upsert_model { n with search_only_hot := !n.search_only_hot } =
      (store.setRow N { n with search_only_hot := !n.search_only_hot }, N) := by
    have := upsert_nonzero store { n with search_only_hot := !n.search_only_hot }
      (by simpa [hid] using hN)
    simpa [hid] using this
  have hres2 : Handlers.getNotification
      (store.setRow N { n with search_only_hot := !n.search_only_hot })
      (.callback cd) = .ok { n with search_only_hot := !n.search_only_hot } := by
    simp [Handlers.getNotification, Store.get_by_id, hcd, setRow_get_same]
  unfold Handlers.toggle_only_hot
  rw [hresH]
  simp only [hup, hres2]

/-- One invocation of the chat toggle on an existing row: the row is
overwritten with the flag negated, the session caches the updated record,
and exactly one store write happens. -/
theorem toggleM_step (store : Store) (cb : Option (List Char))
    (session : ChatSession) (N : Nat) (n : NotificationModel)
    (hne : get_callback_variable cb NOTIFICATION_ID ≠ [])
    (hparse : parsePyNat (get_callback_variable cb NOTIFICATION_ID) = some N)
    (hs : store.data N = some n) (hid : n.id = N) :
    Methods.toggle_only_hot store cb session =
      .ok (store.setRow N { n with search_only_hot := !n.search_only_hot },
           ⟨some { n with search_only_hot := !n.search_only_hot }⟩, 1,
           [.replyOverview n.id]) := by
  have hres1 : Methods.get_notification store cb session = .ok (n, ⟨some n⟩) := by
    simp [Methods.get_notification, hne, hparse, Store.get_by_id, hs]
  have hupd : store.updOnlyHot n.id (!n.search_only_hot) =
      store.setRow N { n with search_only_hot := !n.search_only_hot } := by
    conv_lhs => rw [hid]
    exact updOnlyHot_eq_setRow store N n (!n.search_only_hot) hs
  have hres2 : Methods.get_notification
      (store.setRow N { n with search_only_hot := !n.search_only_hot }) cb
      ⟨some n⟩ =
      .ok ({ n with search_only_hot := !n.search_only_hot },
           ⟨some { n with search_only_hot := !n.search_only_hot }⟩) := by
    simp [Methods.get_notification, hne, hparse, Store.get_by_id, setRow_get_same]
  unfold Methods.toggle_only_hot
  rw [hres1]
  simp only [hupd, hres2]

/-- Replacing a field by its own value is the identity. -/
theorem upd_flag_self (n : NotificationModel) :
    { n with search_only_hot := n.search_only_hot } = n := by
  cases n
  rfl

/-- C9: Toggle involution, both integrations: a single invocation of the
"toggle only-hot" action flips the flag and issues exactly one store write,
and two consecutive invocations restore the store — the flag and every
other row — to its original state, with two writes in total. -/
theorem c9_toggle_involution (store : Store) (cd : CallbackData)
    (cb : Option (List Char)) (session : ChatSession)
    (N : Nat) (n : NotificationModel)
    (hs : store.data N = some n) (hid : n.id = N) (hN : N ≠ 0)
    (hcd : cd.notification_id = some N)
    (hne : get_callback_variable cb NOTIFICATION_ID ≠ [])
    (hparse : parsePyNat (get_callback_variable cb NOTIFICATION_ID) = some N) :
    toggleTwiceH store cd = .ok (store, 2) ∧
    toggleTwiceM store cb session = .ok (store, 2) ∧
    (Handlers.toggle_only_hot store cd).map (fun r => (r.1.data N, r.2.1)) =
      .ok (some { n with search_only_hot := !n.search_only_hot }, 1) ∧
    (Methods.toggle_only_hot store cb session).map
        (fun r => (r.1.data N, r.2.2.1)) =
      .ok (some { n with search_only_hot := !n.search_only_hot }, 1) := by
  have h1 := toggleH_step store cd N n hs hid hN hcd
  have h2 := toggleH_step
    (store.setRow N { n with search_only_hot := !n.search_only_hot }) cd N
    { n with search_only_hot := !n.search_only_hot }
    (setRow_get_same store N _) hid hN hcd
  have m1 := toggleM_step store cb session N n hne hparse hs hid
  have m2 := toggleM_step
    (store.setRow N { n with search_only_hot := !n.search_only_hot }) cb
    ⟨some { n with search_only_hot := !n.search_only_hot }⟩ N
    { n with search_only_hot := !n.search_only_hot }
    hne hparse (setRow_get_same store N _) hid
  have hrest := setRow_restore store N
    { n with search_only_hot := !n.search_only_hot } n hs
  refine ⟨?_, ?_, ?_, ?_⟩
  · simp only [toggleTwiceH, h1, h2, Bool.not_not, upd_flag_self, hrest]
  · simp only [toggleTwiceM, m1, m2, Bool.not_not, upd_flag_self, hrest]
  · simp [h1, Except.map, setRow_get_same]
  · simp [m1, Except.map, setRow_get_same]

/-- Witness for C9 at notification 7. -/
theorem c9_witness :
    toggleTwiceH exStore7 ⟨some 7⟩ = .ok (exStore7, 2) ∧
    toggleTwiceM exStore7 (some ("toggle_hot!notification_id=7".toList)) ⟨none⟩ =
      .ok (exStore7, 2) ∧
    (Handlers.toggle_only_hot exStore7 ⟨some 7⟩).map
        (fun r => (r.1.data 7, r.2.1)) =
      .ok (some { exN7 with search_only_hot := !exN7.search_only_hot }, 1) ∧
    (Methods.toggle_only_hot exStore7
        (some ("toggle_hot!notification_id=7".toList)) ⟨none⟩).map
        (fun r => (r.1.data 7, r.2.2.1)) =
      .ok (some { exN7 with search_only_hot := !exN7.search_only_hot }, 1) :=
  c9_toggle_involution exStore7 ⟨some 7⟩
    (some ("toggle_hot!notification_id=7".toList)) ⟨none⟩ 7 exN7
    (by decide) rfl (by decide) rfl (by decide) (by decide)

/-! ## Non-negativity of validated price input (C7 machinery) -/

/-- Lemma: `takeWhile` over an append whose left part wholly satisfies the
predicate. -/
theorem takeWhile_app_all {α : Type} (p : α → Bool) (a b : List α)
    (h : ∀ c ∈ a, p c = true) :
    (a ++ b).takeWhile p = a ++ b.takeWhile p := by
  induction a with
  | nil => simp
  | cons c t ih =>
    have hc : p c = true := h c (by simp)
    simp [List.takeWhile_cons, hc, ih (fun x hx => h x (by simp [hx]))]

/-- Lemma: `dropWhile` over an append whose left part wholly satisfies the
predicate. -/
theorem dropWhile_app_all {α : Type} (p : α → Bool) (a b : List α)
    (h : ∀ c ∈ a, p c = true) :
    (a ++ b).dropWhile p = b.dropWhile p := by
  induction a with
  | nil => simp
  | cons c t ih =>
    have hc : p c = true := h c (by simp)
    simp [List.dropWhile_cons, hc, ih (fun x hx => h x (by simp [hx]))]

/-- A decimal digit is none of the characters the price parser treats
specially. -/
theorem isDigit_ne (c : Char) (h : c.isDigit = true) :
    c ≠ ',' ∧ c ≠ '.' ∧ c ≠ '-' ∧ c ≠ '+' := by
  refine ⟨?_, ?_, ?_, ?_⟩ <;> rintro rfl <;> exact absurd h (by decide)

/-- The comma normalization fixes a digit string. -/
theorem map_commaToDot_digits (l : List Char) (h : l.all Char.isDigit = true) :
    l.map commaToDot = l := by
  induction l with
  | nil => rfl
  | cons c t ih =>
    simp only [List.all_cons, Bool.and_eq_true] at h
    simp [commaToDot, (isDigit_ne c h.1).1, ih h.2]

/-- An unsigned decimal numeral parses to a `DecNum` with a non-negative
numerator. -/
theorem parse_of_numeral (s : List Char) (h : matchesPriceNumeral s = true) :
    ∃ d : DecNum, parsePyFloat (s.map commaToDot) = some d ∧ 0 ≤ d.num := by
  have hsplit := List.takeWhile_append_dropWhile Char.isDigit s
  unfold matchesPriceNumeral at h
  simp only [Bool.and_eq_true, Bool.or_eq_true] at h
  obtain ⟨hipne, hrest⟩ := h
  set ip := s.takeWhile Char.isDigit with hip_def
  have hipd : ip.all Char.isDigit = true :=
    List.all_eq_true.mpr (fun x hx => List.mem_takeWhile_imp hx)
  have hipdm : ∀ c ∈ ip, Char.isDigit c = true := List.all_eq_true.mp hipd
  have hipne' : ip ≠ [] := by
    intro hnil
    rw [hnil] at hipne
    exact absurd hipne (by decide)
  have hipdot : ∀ c ∈ ip, (fun c => decide (c ≠ '.')) c = true := by
    intro c hc
    simp [(isDigit_ne c (hipdm c hc)).2.1]
  obtain ⟨a, ipt, hip_cons⟩ := List.exists_cons_of_ne_nil hipne'
  have hahead : Char.isDigit a = true := hipdm a (by rw [hip_cons]; simp)
  cases hr : s.dropWhile Char.isDigit with
  | nil =>
    rw [hr] at hsplit
    simp only [List.append_nil] at hsplit
    have hmap : s.map commaToDot = ip := by
      rw [← hsplit]
      exact map_commaToDot_digits ip hipd
    refine ⟨⟨digitsVal ip, 0⟩, ?_, Int.natCast_nonneg _⟩
    rw [hmap, hip_cons]
    simp only [parsePyFloat]
    rw [if_neg (by simpa using (isDigit_ne a hahead).2.2.1),
        if_neg (by simpa using (isDigit_ne a hahead).2.2.2), ← hip_cons]
    unfold parsePyFloatCore
    have htw : ip.takeWhile (fun c => decide (c ≠ '.')) = ip := by
      have := takeWhile_app_all (fun c => decide (c ≠ '.')) ip [] hipdot
      simpa using this
    have hdw : ip.dropWhile (fun c => decide (c ≠ '.')) = [] := by
      have := dropWhile_app_all (fun c => decide (c ≠ '.')) ip [] hipdot
      simpa using this
    rw [hdw]
    simp only [htw]
    simp [hipne', hipd]
  | cons c fp =>
    rw [hr] at hrest hsplit
    simp only [Bool.and_eq_true, Bool.or_eq_true] at hrest
    obtain ⟨⟨hcsep, hfpne⟩, hfpd⟩ := hrest
    have hfpne' : fp ≠ [] := by
      intro hnil
      rw [hnil] at hfpne
      exact absurd hfpne (by decide)
    have hcdot : commaToDot c = '.' := by
      rcases hcsep with hc | hc
      · simp only [decide_eq_true_eq] at hc
        simp [commaToDot, hc]
      · simp only [decide_eq_true_eq] at hc
        subst hc
        rfl
    have hfpd' : ∀ x ∈ fp, Char.isDigit x = true := List.all_eq_true.mp hfpd
    have hmap : s.map commaToDot = ip ++ '.' :: fp := by
      rw [← hsplit]
      rw [List.map_append, map_commaToDot_digits ip hipd]
      simp [hcdot, map_commaToDot_digits fp hfpd]
    have hfpdot : fp.all (fun c => decide (c ≠ '.')) = true :=
      List.all_eq_true.mpr (fun x hx => by
        simp [(isDigit_ne x (hfpd' x hx)).2.1])
    refine ⟨⟨digitsVal ip * ((10 : ℕ) ^ fp.length : ℕ) + digitsVal fp,
             fp.length⟩, ?_, Int.natCast_nonneg _⟩
    rw [hmap, hip_cons]
    have hbody : a :: (ipt ++ '.' :: fp) = ip ++ '.' :: fp := by
      rw [hip_cons]
      rfl
    rw [List.cons_append]
    simp only [parsePyFloat]
    rw [if_neg (by simpa using (isDigit_ne a hahead).2.2.1),
        if_neg (by simpa using (isDigit_ne a hahead).2.2.2), hbody]
    unfold parsePyFloatCore
    have htw : (ip ++ '.' :: fp).takeWhile (fun c => decide (c ≠ '.')) = ip := by
      rw [takeWhile_app_all (fun c => decide (c ≠ '.')) ip ('.' :: fp) hipdot]
      simp [List.takeWhile_cons]
    have hdw : (ip ++ '.' :: fp).dropWhile (fun c => decide (c ≠ '.')) =
        '.' :: fp := by
      rw [dropWhile_app_all (fun c => decide (c ≠ '.')) ip ('.' :: fp) hipdot]
      simp [List.dropWhile_cons]
    rw [hdw]
    simp only [htw]
    simp [hipne', hipd, hfpd, hfpdot, ← hip_cons]
    intro hmem
    simpa using List.all_eq_true.mp hfpdot '.' hmem

/-- Banker's rounding of a non-negative decimal is non-negative. -/
theorem pythonRound_nonneg (d : DecNum) (h : 0 ≤ d.num) : 0 ≤ pythonRound d := by
  have hden : 0 ≤ d.den := by
    unfold DecNum.den
    exact Int.natCast_nonneg _
  have hf : 0 ≤ d.num / d.den := Int.ediv_nonneg h hden
  unfold pythonRound
  dsimp only
  split_ifs <;> omega

/-- C7: Non-negative price invariant: every accepted price input (per the
spec's validation: `/remove` or a decimal numeral) parses and rounds to a
non-negative integer, and pushing it through the max-price mutation of
either integration leaves the target notification with that non-negative
`max_price` in the store. -/
theorem c7_price_nonneg (s : List Char) (h : isValidPriceInput s = true) :
    (pricePipeline s).isSome = true ∧
    0 ≤ (pricePipeline s).getD 0 ∧
    (∀ (store : Store) (fsm : FSMContext) (M : Nat) (n : NotificationModel),
       fsm.notification_id = some M → store.data M = some n → n.id = M →
       M ≠ 0 →
       (Handlers.process_edit_max_price store fsm s).map (fun r => r.1.data M) =
         .ok (some { n with max_price := (pricePipeline s).getD 0 }) ∧
       (Methods.update_max_price store none ⟨some n⟩ s).map
           (fun r => r.1.data M) =
         .ok (some { n with max_price := (pricePipeline s).getD 0 })) := by
  have hv : ∃ v, pricePipeline s = some v ∧ 0 ≤ v := by
    by_cases hrem : s = "/remove".toList
    · subst hrem
      exact ⟨0, by decide, le_refl 0⟩
    · have hnum : matchesPriceNumeral s = true := by
        unfold isValidPriceInput at h
        simp only [Bool.or_eq_true] at h
        rcases h with h | h
        · exact absurd (by simpa using h) hrem
        · exact h
      obtain ⟨d, hd, hdn⟩ := parse_of_numeral s hnum
      refine ⟨pythonRound d, ?_, pythonRound_nonneg d hdn⟩
      unfold pricePipeline
      rw [if_neg hrem]
      show Option.map pythonRound (parsePyFloat (s.map commaToDot)) =
        some (pythonRound d)
      rw [hd]
      rfl
  obtain ⟨v, hp, hvn⟩ := hv
  refine ⟨by simp [hp], by simp [hp, hvn], ?_⟩
  intro store fsm M n hpin hs hid hM
  have hres : Handlers.getNotification store (.fsm fsm) = .ok n := by
    simp [Handlers.getNotification, Store.get_by_id, hpin, hs]
  have hresM : Methods.get_notification store none ⟨some n⟩ = .ok (n, ⟨some n⟩) :=
    rfl
  constructor
  · unfold Handlers.process_edit_max_price
    rw [hres, hp]
    simp [Store.upsert_model, hid, hM, Except.map, hp]
  · unfold Methods.update_max_price
    rw [hresM, hp]
    simp [Store.updMaxPrice, hid, hs, Except.map, hp]

/-- Witness for C7 at the input `"12,50"` and notification 3. -/
theorem c7_witness :
    (pricePipeline ("12,50".toList)).isSome = true ∧
    0 ≤ (pricePipeline ("12,50".toList)).getD 0 ∧
    (Handlers.process_edit_max_price exStore3 exFsmMax ("12,50".toList)).map
        (fun r => r.1.data 3) =
      .ok (some { exN3 with
                  max_price := (pricePipeline ("12,50".toList)).getD 0 }) ∧
    (Methods.update_max_price exStore3 none ⟨some exN3⟩ ("12,50".toList)).map
        (fun r => r.1.data 3) =
      .ok (some { exN3 with
                  max_price := (pricePipeline ("12,50".toList)).getD 0 }) :=
  have h := c7_price_nonneg ("12,50".toList) (by decide)
  have h3 := h.2.2 exStore3 exFsmMax 3 exN3 rfl (by decide) rfl (by decide)
  ⟨h.1, h.2.1, h3.1, h3.2⟩

/-! ## Codec round-trip (C2 machinery) -/

/-- Lemma: `leadsWith` over a shared front segment. -/
theorem leadsWith_app (x y z : List Char) :
    leadsWith (x ++ y) (x ++ z) = leadsWith y z := by
  induction x with
  | nil => rfl
  | cons c t ih => simp [leadsWith, ih]

/-- A pattern begins every extension of itself. -/
theorem leadsWith_self (x z : List Char) : leadsWith x (x ++ z) = true := by
  have h := leadsWith_app x [] z
  rw [List.append_nil] at h
  rw [h]
  cases z <;> rfl

/-- With `=`-free keys, the pattern `k=` cannot begin at a pair whose key
differs from `k`. -/
theorem leadsWith_key_mismatch (k : List Char) :
    ∀ (k1 a : List Char), '=' ∉ k → '=' ∉ k1 → k ≠ k1 →
    leadsWith (k ++ ['=']) (k1 ++ '=' :: a) = false := by
  induction k with
  | nil =>
    intro k1 a _ hk1 hne
    cases k1 with
    | nil => exact absurd rfl hne
    | cons c1 t1 =>
      have hc1 : ¬('=' = c1) := fun hh => hk1 (by simp [← hh])
      simp [leadsWith, hc1]
  | cons c t ih =>
    intro k1 a hk hk1 hne
    cases k1 with
    | nil =>
      have hc : ¬(c = '=') := fun hh => hk (by simp [hh])
      simp [leadsWith, hc]
    | cons c1 t1 =>
      by_cases hcc : c = c1
      · subst hcc
        have ht : t ≠ t1 := fun hh => hne (by rw [hh])
        have htk : '=' ∉ t := fun hh => hk (by simp [hh])
        have htk1 : '=' ∉ t1 := fun hh => hk1 (by simp [hh])
        simpa [leadsWith] using ih t1 a htk htk1 ht
      · simp [leadsWith, hcc]

/-- Lemma: `leadsWith` fails on differing head characters. -/
theorem leadsWith_cons_ne (a c : Char) (p s : List Char) (h : ¬(a = c)) :
    leadsWith (a :: p) (c :: s) = false := by
  have hbeq : (a == c) = false := by simp [h]
  show ((a == c) && leadsWith p s) = false
  rw [hbeq]
  rfl

/-- Lemma: `findSub` finds a pattern that begins the string at index 0. -/
theorem findSub_head (p s : List Char) (h : leadsWith p s = true) :
    findSub p s = some 0 := by
  cases s with
  | nil => simp [findSub, h]
  | cons c t => simp [findSub, h]

/-- Lemma: `findSub` for a `!`-headed pattern skips a `!`-free front segment. -/
theorem findSub_bang_app (p : List Char) :
    ∀ (s1 s2 : List Char) (i : Nat), '!' ∉ s1 →
    findSub ('!' :: p) s2 = some i →
    findSub ('!' :: p) (s1 ++ s2) = some (s1.length + i) := by
  intro s1
  induction s1 with
  | nil =>
    intro s2 i _ h2
    simpa using h2
  | cons c t ih =>
    intro s2 i h1 h2
    have hc : ¬('!' = c) := fun hh => h1 (by simp [← hh])
    have hlw : leadsWith ('!' :: p) (c :: (t ++ s2)) = false :=
      leadsWith_cons_ne '!' c p (t ++ s2) hc
    rw [List.cons_append, findSub, if_neg (by simp [hlw]),
        ih s2 i (fun hh => h1 (by simp [hh])) h2]
    simp only [Option.map_some', List.length_cons]
    congr 1
    omega

/-- A character absent from a string is never found. -/
theorem findSub_single_none (c : Char) (l : List Char) (h : c ∉ l) :
    findSub [c] l = none := by
  induction l with
  | nil => rfl
  | cons x t ih =>
    have hx : ¬(c = x) := fun hh => h (by simp [hh])
    have hlw : leadsWith [c] (x :: t) = false := leadsWith_cons_ne c x [] t hx
    rw [findSub, if_neg (by simp [hlw]), ih (fun hh => h (by simp [hh]))]
    rfl

/-- Where the pattern `!k=` first occurs in an encoded pair list and what
follows it: the value of the (unique) pair with key `k`, then either the
end of the token or the next pair delimiter. -/
theorem findSub_flattenPairs (k v : List Char) :
    ∀ (pairs : List (List Char × List Char)),
    (k, v) ∈ pairs →
    (pairs.map Prod.fst).Nodup →
    (∀ p ∈ pairs, tokenSafe p.1 ∧ tokenSafe p.2) →
    tokenSafe k →
    ∃ i t, findSub ('!' :: (k ++ ['='])) (flattenPairs pairs) = some i ∧
      (flattenPairs pairs).drop (i + (k.length + 2)) = v ++ t ∧
      '!' ∉ v ∧ (t = [] ∨ ∃ t2, t = '!' :: t2) := by
  intro pairs
  induction pairs with
  | nil =>
    intro hmem
    cases hmem
  | cons hd rest ih =>
    obtain ⟨k1, v1⟩ := hd
    intro hmem hnodup hsafe hk
    have hflat : flattenPairs ((k1, v1) :: rest) =
        '!' :: (k1 ++ '=' :: (v1 ++ flattenPairs rest)) := by
      simp [flattenPairs, VARIABLE_PATTERN]
    by_cases hkk : k = k1
    · subst hkk
      have hv : v = v1 := by
        rcases List.mem_cons.mp hmem with heq | hmem'
        · injection heq with h1 h2
        · exfalso
          have h2 := hnodup
          simp [List.nodup_cons] at h2
          exact h2.1 v hmem'
      subst hv
      have heq2 : '!' :: (k ++ '=' :: (v ++ flattenPairs rest)) =
          ('!' :: (k ++ ['='])) ++ (v ++ flattenPairs rest) := by simp
      refine ⟨0, flattenPairs rest, ?_, ?_, (hsafe (k, v) (by simp)).2.1, ?_⟩
      · apply findSub_head
        rw [hflat, heq2]
        exact leadsWith_self _ _
      · rw [hflat, heq2, Nat.zero_add]
        have hlen : k.length + 2 = ('!' :: (k ++ ['='])).length := by
          simp [List.length_append]
        rw [hlen, List.drop_left]
      · cases rest with
        | nil => exact Or.inl rfl
        | cons p2 r2 =>
          right
          obtain ⟨k2, v2⟩ := p2
          exact ⟨k2 ++ '=' :: (v2 ++ flattenPairs r2),
                 by simp [flattenPairs, VARIABLE_PATTERN]⟩
    · have hmem' : (k, v) ∈ rest := by
        rcases List.mem_cons.mp hmem with heq | h2
        · injection heq with h1 h2
          exact absurd h1 hkk
        · exact h2
      have hnodup' : (rest.map Prod.fst).Nodup := by
        have h2 := hnodup
        simp [List.nodup_cons] at h2
        exact h2.2
      have hsafe' : ∀ p ∈ rest, tokenSafe p.1 ∧ tokenSafe p.2 :=
        fun p hp => hsafe p (by simp [hp])
      obtain ⟨i, t, hfind, hdrop, hvv, ht⟩ := ih hmem' hnodup' hsafe' hk
      have hsafe1 := hsafe (k1, v1) (by simp)
      have hseg : '!' ∉ (k1 ++ '=' :: v1) := by
        intro hmem2
        rcases List.mem_append.mp hmem2 with h2 | h2
        · exact hsafe1.1.1 h2
        · rcases List.mem_cons.mp h2 with h3 | h3
          · exact absurd h3 (by decide)
          · exact hsafe1.2.1 h3
      have hstep : findSub ('!' :: (k ++ ['=']))
          ((k1 ++ '=' :: v1) ++ flattenPairs rest) =
          some ((k1 ++ '=' :: v1).length + i) :=
        findSub_bang_app (k ++ ['=']) (k1 ++ '=' :: v1) (flattenPairs rest) i
          hseg hfind
      have hlw : leadsWith ('!' :: (k ++ ['=']))
          ('!' :: (k1 ++ '=' :: (v1 ++ flattenPairs rest))) = false := by
        show (('!' == '!') &&
          leadsWith (k ++ ['=']) (k1 ++ '=' :: (v1 ++ flattenPairs rest))) = false
        rw [leadsWith_key_mismatch k k1 (v1 ++ flattenPairs rest) hk.2
            hsafe1.1.2 hkk]
        simp
      have hassoc : k1 ++ '=' :: (v1 ++ flattenPairs rest) =
          (k1 ++ '=' :: v1) ++ flattenPairs rest := by simp
      refine ⟨(k1 ++ '=' :: v1).length + i + 1, t, ?_, ?_, hvv, ht⟩
      · rw [hflat, findSub, if_neg (by simp [hlw]), hassoc, hstep]
        rfl
      · rw [hflat, hassoc]
        have harith : ((k1 ++ '=' :: v1).length + i + 1) + (k.length + 2) =
            ((k1 ++ '=' :: v1).length + (i + (k.length + 2))) + 1 := by omega
        rw [harith, List.drop_succ_cons, List.drop_append]
        exact hdrop

/-- Evaluation of `get_callback_variable` once the pattern's position is
known. -/
theorem gcv_eval (cb k : List Char) (j : Nat) (hne : cb ≠ [])
    (hfind : findSub (VARIABLE_PATTERN k []) cb = some j) :
    get_callback_variable (some cb) k =
      (cb.drop (j + (VARIABLE_PATTERN k []).length)).take
        ((match (findSub ['!'] (cb.drop (j + (VARIABLE_PATTERN k []).length))).map
            (· + (j + (VARIABLE_PATTERN k []).length)) with
          | some e => e
          | none => cb.length) - (j + (VARIABLE_PATTERN k []).length)) := by
  have h0 : get_callback_variable (some cb) k =
      (if cb = [] then [] else
        match findSub (VARIABLE_PATTERN k []) cb with
        | none => []
        | some start0 =>
          (cb.drop (start0 + (VARIABLE_PATTERN k []).length)).take
            ((match (findSub ['!']
                (cb.drop (start0 + (VARIABLE_PATTERN k []).length))).map
                (· + (start0 + (VARIABLE_PATTERN k []).length)) with
              | some e => e
              | none => cb.length) -
              (start0 + (VARIABLE_PATTERN k []).length))) := rfl
  rw [h0, if_neg hne, hfind]

/-- The encoded pair list is empty or starts with the pair delimiter. -/
theorem flattenPairs_shape (pairs : List (List Char × List Char)) :
    flattenPairs pairs = [] ∨ ∃ r, flattenPairs pairs = '!' :: r := by
  cases pairs with
  | nil => exact Or.inl rfl
  | cons q r =>
    obtain ⟨kq, vq⟩ := q
    exact Or.inr ⟨kq ++ '=' :: (vq ++ flattenPairs r),
                  by simp [flattenPairs, VARIABLE_PATTERN]⟩

/-- C2: Callback-codec round-trip: for every action name and every
variable map with token-safe (delimiter-free) keys and values and distinct
keys, decoding the token produced by the encoder recovers the action and
the exact value of every variable. -/
theorem c2_callback_roundtrip (action : List Char)
    (vars : List (List Char × List Char))
    (ha : tokenSafe action)
    (hvars : ∀ p ∈ vars, tokenSafe p.1 ∧ tokenSafe p.2)
    (hnodup : (vars.map Prod.fst).Nodup) :
    decodeAction (encodeCallback action vars) = action ∧
    ∀ p ∈ vars,
      get_callback_variable (some (encodeCallback action vars)) p.1 = p.2 := by
  constructor
  · unfold decodeAction encodeCallback
    have hact : ∀ c ∈ action, (fun c => decide (c ≠ '!')) c = true := by
      intro c hc
      simp
      rintro rfl
      exact ha.1 hc
    rw [takeWhile_app_all _ action (flattenPairs vars) hact]
    rcases flattenPairs_shape vars with hfl | ⟨r, hfl⟩
    · simp [hfl]
    · rw [hfl]
      simp [List.takeWhile_cons]
  · intro p hp
    obtain ⟨k, v⟩ := p
    have hkk := hvars (k, v) hp
    obtain ⟨i, t, hfind, hdrop, hv, ht⟩ :=
      findSub_flattenPairs k v vars hp hnodup hvars hkk.1
    have hfind2 : findSub ('!' :: (k ++ ['='])) (action ++ flattenPairs vars) =
        some (action.length + i) :=
      findSub_bang_app (k ++ ['=']) action (flattenPairs vars) i ha.1 hfind
    have hcbne : action ++ flattenPairs vars ≠ [] := by
      rcases flattenPairs_shape vars with hfl | ⟨r, hfl⟩
      · cases vars with
        | nil => cases hp
        | cons q rr =>
          obtain ⟨kq, vq⟩ := q
          simp [flattenPairs, VARIABLE_PATTERN] at hfl
      · simp [hfl]
    have hstart : (action.length + i) + (VARIABLE_PATTERN k []).length =
        action.length + (i + (k.length + 2)) := by
      simp [VARIABLE_PATTERN]
      omega
    have hdropcb : (action ++ flattenPairs vars).drop
        ((action.length + i) + (VARIABLE_PATTERN k []).length) = v ++ t := by
      rw [hstart, List.drop_append, hdrop]
    show get_callback_variable (some (encodeCallback action vars)) k = v
    unfold encodeCallback
    rw [gcv_eval (action ++ flattenPairs vars) k (action.length + i) hcbne
        hfind2]
    rw [hdropcb]
    rcases ht with ht | ⟨t2, ht⟩
    · subst ht
      have hfs : findSub ['!'] (v ++ []) = none := by
        rw [List.append_nil]
        exact findSub_single_none '!' v hv
      rw [hfs]
      have hlen2 : (action ++ flattenPairs vars).length -
          ((action.length + i) + (VARIABLE_PATTERN k []).length) =
          v.length := by
        have hgl := congrArg List.length hdropcb
        rw [List.length_drop, List.append_nil] at hgl
        exact hgl
      simp only [Option.map_none']
      rw [hlen2, List.append_nil, List.take_length]
    · subst ht
      have hfs : findSub ['!'] (v ++ '!' :: t2) = some v.length := by
        have hh := findSub_bang_app [] v ('!' :: t2) 0 hv
          (findSub_head ['!'] ('!' :: t2) rfl)
        simpa using hh
      rw [hfs]
      simp only [Option.map_some']
      rw [Nat.add_sub_cancel]
      exact List.take_left v ('!' :: t2)

/-- Witness for C2 at a concrete action and two-variable map. -/
theorem c2_witness :
    decodeAction (encodeCallback ("show".toList)
      [("notification_id".toList, "5".toList), ("mode".toList, "hot".toList)]) =
      "show".toList ∧
    get_callback_variable (some (encodeCallback ("show".toList)
      [("notification_id".toList, "5".toList), ("mode".toList, "hot".toList)]))
      ("notification_id".toList) = "5".toList ∧
    get_callback_variable (some (encodeCallback ("show".toList)
      [("notification_id".toList, "5".toList), ("mode".toList, "hot".toList)]))
      ("mode".toList) = "hot".toList :=
  have h := c2_callback_roundtrip ("show".toList)
    [("notification_id".toList, "5".toList), ("mode".toList, "hot".toList)]
    (by decide) (by decide) (by decide)
  ⟨h.1, h.2 ("notification_id".toList, "5".toList) (by decide),
   h.2 ("mode".toList, "hot".toList) (by decide)⟩
